import Mathlib

/-!
Verification development for the dyngo in-process instrumentation event bus
(operation tree, type registry, event bubbling) and the appsec intake API
payload builder of this repository.

The dyngo core is embedded from the Go sources (package dyngo): operations
form a tree, events bubble along the parent chain, a process-wide type
registry maps operation argument types to expected result types.  Machine
state (the operation tree, the registries) is passed explicitly as a
`World` value; a node is addressed by its index in the creation order, so
the root is index 0 and every child holds the index of its already-created
parent.  Go panics are embedded as `Except.error`; the semantics of Go's
`defer o.disable()` in `Finish` is that the disable update is applied to
the resulting world on both the normal and the error path.

Runtime types (`reflect.Type`) are embedded as an abstract countable type
of type descriptors, and a value is represented by its type descriptor
only, since the engine dispatches purely on the concrete runtime type.
Listener callbacks are opaque to the engine; dispatching an event is
therefore recorded as the list of `Invocation`s it produces (which node
invoked which listener, for which origin operation and payload type),
in invocation order.
-/

namespace Dyngo

/-- A runtime type descriptor (embeds `reflect.Type`). -/
abbrev Ty := Nat

/-- The three event kinds an operation dispatches: operation start, operation
data emission, operation finish. -/
inductive EventKind where
  | start
  | data
  | finish
deriving DecidableEq

/-- An event listener: the event kind it reacts to, the concrete payload type
it watches (`key`), and an identity `lid` standing for the callback (the
engine never inspects the callback, it only invokes it). -/
structure EventListener where
  kind : EventKind
  key : Ty
  lid : Nat
deriving DecidableEq

/-- Per-operation listener state: the three listener collections and the
`disabled` flag (the `eventManager` struct embedded in `Operation`). -/
structure eventManager where
  onStart : List EventListener
  onData : List EventListener
  onFinish : List EventListener
  disabled : Bool
deriving DecidableEq

/-- Select the listener collection of an event kind. -/
def eventManager.listenersOf (e : eventManager) : EventKind → List EventListener
  | .start => e.onStart
  | .data => e.onData
  | .finish => e.onFinish

/-- An operation node: parent back-reference (`none` only for the root),
expected result type captured at creation, and its listener state.
Embeds the Go `Operation` struct (part_000 lines 37-41). -/
structure Operation where
  parent : Option Nat
  expectedResType : Ty
  em : eventManager
deriving DecidableEq

/-- The default operation returned for an out-of-range index: a parentless,
disabled node with no listeners (never reachable from well-formed use). -/
instance : Inhabited Operation :=
  ⟨{ parent := none, expectedResType := 0,
     em := { onStart := [], onData := [], onFinish := [], disabled := true } }⟩

/-- The whole machine state: the operation nodes in creation order (root at
index 0) and the two package-level registries (part_000 lines 45-52). -/
structure World where
  ops : List Operation
  operationRegister : List (Ty × Ty)
  operationResRegister : List Ty
deriving DecidableEq

/-- Fetch the operation at an index. -/
def World.get (w : World) (i : Nat) : Operation :=
  w.ops.getD i default

/-- The initial world: only the root operation (part_000 line 33), empty
registries. -/
def World.init : World :=
  { ops := [{ parent := none, expectedResType := 0,
              em := { onStart := [], onData := [], onFinish := [], disabled := false } }],
    operationRegister := [], operationResRegister := [] }

/-- One listener invocation produced by dispatching an event: the node whose
collection held the listener, the listener identity, the origin operation the
event belongs to, and the payload's runtime type. -/
structure Invocation where
  node : Nat
  lid : Nat
  origin : Nat
  payload : Ty
deriving DecidableEq

/-- Registry lookup on the argument-type register. -/
def lookupReg (w : World) (args : Ty) : Option Ty :=
  (w.operationRegister.find? (fun p => p.1 == args)).map (fun p => p.2)

/-- RegisterOperation (part_000 lines 56-70): fatal when the argument type is
already registered, otherwise records both the argument-to-result mapping and
the result type.  The reflection step `validateEventListenerKey` (not among
the provided sources) only extracts the runtime type descriptor of the given
prototype values, which this embedding receives directly. -/
def RegisterOperation (w : World) (argsType resType : Ty) : Except String World :=
  match lookupReg w argsType with
  | some _ => .error "operation already registered with argument type"
  | none =>
    .ok { w with operationRegister := w.operationRegister ++ [(argsType, resType)],
                 operationResRegister := w.operationResRegister ++ [resType] }

/-- getOperationRes (part_000 lines 161-167): expected result type of an
argument type, or an unknown-operation error. -/
def getOperationRes (w : World) (args : Ty) : Except String Ty :=
  match lookupReg w args with
  | some res => .ok res
  | none => .error "unexpected operation: unknown operation argument type"

/-- validateExpectedRes (part_000 lines 154-159). -/
def validateExpectedRes (res expectedRes : Ty) : Except String Unit :=
  if res ≠ expectedRes then
    .error "unexpected operation result: expecting the registered result type"
  else
    .ok ()

/-- Modelled from the spec: the per-node event dispatch performed by the
`eventManager` methods `emitStartEvent`, `emitDataEvent` and `emitFinishEvent`
referenced from part_000 but whose implementation is not among the provided
sources.  Per spec section 4.3, dispatch at a node invokes the node's
listeners of that event kind whose watched type equals the payload's concrete
runtime type exactly, in registration order; per spec section 7, events of an
already-disabled origin operation are recovered locally as silent no-ops
(no listener is invoked anywhere on the chain), so dispatch first checks the
origin operation's disabled flag. -/
def emitEvent (w : World) (node : Nat) (k : EventKind) (origin : Nat) (payload : Ty) :
    List Invocation :=
  if (w.get origin).em.disabled then
    []
  else
    (((w.get node).em.listenersOf k).filter (fun l => l.key == payload)).map
      (fun l => { node := node, lid := l.lid, origin := origin, payload := payload })

/-- Dispatch an event on a chain of nodes, in chain order. -/
def bubble (w : World) (nodes : List Nat) (k : EventKind) (origin : Nat) (payload : Ty) :
    List Invocation :=
  nodes.flatMap (fun n => emitEvent w n k origin payload)

/-- The node chain visited by the loops `for op := o; op != nil;
op = op.Parent()` of part_000: the node itself, then its parent chain up to
the parentless root.  The index guard makes the recursion well-founded; in a
well-formed world a parent always has a smaller index than its child. -/
def ancestorChain (w : World) (i : Nat) : List Nat :=
  match (w.get i).parent with
  | none => [i]
  | some p => if _h : p < i then i :: ancestorChain w p else [i]
termination_by i

/-- Parent-index sanity of one node: the root (index 0) is the only
parentless node and every parent was created before its child. -/
def childOK (o : Operation) (i : Nat) : Bool :=
  match o.parent with
  | none => i == 0
  | some p => decide (p < i)

/-- Well-formed world: nonempty (the root exists) and every node's parent
link is sane.  Every world reachable from `World.init` through the API below
is well-formed. -/
def WF (w : World) : Prop :=
  0 < w.ops.length ∧ ∀ i, i < w.ops.length → childOK (w.get i) i = true

instance (w : World) : Decidable (WF w) := by
  unfold WF
  exact inferInstance

/-- StartOperation (part_000 lines 73-87): resolve the expected result type
from the registry (fatal if the argument type is unknown), create the new
operation with the given parent (the root when none is given), then emit the
start event on the strict ancestor chain, starting at the immediate parent.
Returns the new world, the new operation's index, and the invocations of the
start event. -/
def StartOperation (w : World) (argsTy : Ty) (parent : Option Nat) :
    Except String (World × Nat × List Invocation) :=
  match getOperationRes w argsTy with
  | .error e => .error e
  | .ok resTy =>
    let i := w.ops.length
    let par := parent.getD 0
    let w' := { w with
      ops := w.ops ++ [{ parent := some par, expectedResType := resTy,
                         em := { onStart := [], onData := [], onFinish := [],
                                 disabled := false } }] }
    .ok (w', i, bubble w' (ancestorChain w' par) .start i argsTy)

/-- disable (part_000 lines 114-121): set the disabled flag and clear the
three listener collections of the node. -/
def disableAt (w : World) (i : Nat) : World :=
  { w with
    ops := w.ops.set i { w.get i with
      em := { onStart := [], onData := [], onFinish := [], disabled := true } } }

/-- Finish (part_000 lines 104-112): validate the result type against the
expected one (fatal mismatch), then emit the finish event from the operation
itself up to the root.  The deferred `o.disable()` applies to the resulting
world on both the normal and the fatal path; on the normal path the event is
dispatched on the pre-disable state, since the deferred call runs last. -/
def Finish (w : World) (i : Nat) (results : Ty) :
    World × Except String (List Invocation) :=
  match validateExpectedRes results (w.get i).expectedResType with
  | .error e => (disableAt w i, .error e)
  | .ok _ => (disableAt w i, .ok (bubble w (ancestorChain w i) .finish i results))

/-- EmitData (part_000 lines 126-135): no-op when the operation is disabled,
otherwise emit the data event from the operation itself up to the root. -/
def EmitData (w : World) (i : Nat) (data : Ty) : List Invocation :=
  if (w.get i).em.disabled then
    []
  else
    bubble w (ancestorChain w i) .data i data

/-- Modelled from the spec: `EventListener.registerTo`, called by
Operation.Register (part_000 lines 142-152) but not among the provided
sources.  Per spec section 4.2, a listener is added to the operation's
matching collection (keyed by its event kind) when the operation is Active;
registering on a Disabled operation is permitted but has no observable
effect. -/
def registerTo (w : World) (i : Nat) (l : EventListener) : World :=
  if (w.get i).em.disabled then
    w
  else
    let o := w.get i
    let em' :=
      match l.kind with
      | .start => { o.em with onStart := o.em.onStart ++ [l] }
      | .data => { o.em with onData := o.em.onData ++ [l] }
      | .finish => { o.em with onFinish := o.em.onFinish ++ [l] }
    { w with ops := w.ops.set i { o with em := em' } }

/-- Register (part_000 lines 142-152): register each given listener to the
operation in order.  (The returned unregistration closure is not needed by
the properties below.) -/
def Register (w : World) (i : Nat) (ls : List EventListener) : World :=
  ls.foldl (fun acc l => registerTo acc i l) w

/-- A sequence of RegisterOperation calls, in order; the first fatal call
aborts the sequence.  Used to state the cumulative, order-independent
behaviour of the type registry. -/
def registerAll (w : World) (ps : List (Ty × Ty)) : Except String World :=
  ps.foldlM (fun acc p => RegisterOperation acc p.1 p.2) w

/-- A small concrete world used to exercise the properties below: the root
(index 0) carries one start, one data and one finish listener, and a child
operation (index 1) of the root is Active with expected result type 5; the
registry maps argument type 3 to result type 5. -/
def exampleWorld : World :=
  { ops := [
      { parent := none, expectedResType := 0,
        em := { onStart := [{ kind := .start, key := 3, lid := 102 }],
                onData := [{ kind := .data, key := 7, lid := 101 }],
                onFinish := [{ kind := .finish, key := 5, lid := 100 }],
                disabled := false } },
      { parent := some 0, expectedResType := 5,
        em := { onStart := [], onData := [], onFinish := [], disabled := false } } ],
    operationRegister := [(3, 5)], operationResRegister := [5] }

/-- The same world with the child operation (index 1) already Disabled. -/
def exampleWorldDisabled : World :=
  { ops := [
      { parent := none, expectedResType := 0,
        em := { onStart := [{ kind := .start, key := 3, lid := 102 }],
                onData := [{ kind := .data, key := 7, lid := 101 }],
                onFinish := [{ kind := .finish, key := 5, lid := 100 }],
                disabled := false } },
      { parent := some 0, expectedResType := 5,
        em := { onStart := [], onData := [], onFinish := [], disabled := true } } ],
    operationRegister := [(3, 5)], operationResRegister := [5] }

end Dyngo

/-!
Intake API payload construction (internal/appsec/internal/intake/api/api.go).
Strings stay strings; `time.Time` values are embedded as abstract Nat
timestamps; a `uint64` identifier is a Nat and `strconv.FormatUint(x, 10)`
is its decimal rendering `Nat.repr`.  The raw JSON attack metadata bytes
together with `json.Unmarshal` are embedded as an `Option AttackMetadata`
(`some` when the bytes decode, `none` when decoding fails), and the
nondeterministic UUID generation of the external uuid library is embedded by
passing the freshly drawn identifier as an explicit argument (for the batch
key) or leaving the placeholder value (for the per-event identifier, which no
verified property depends on).  The HTTP context mapping
(`applyHTTPContext` / `makeAttackContextHTTPRequest` / `splitHostPort`),
which depends on the net standard library and is touched by none of the
verified properties, is not part of this embedding; the corresponding
`AttackContext.HTTP` field and context variant are omitted.
-/

namespace Intake

/-- AttackRule intake API payload (api.go lines 44-47). -/
structure AttackRule where
  ID : String
  Name : String
deriving DecidableEq

/-- AttackRuleMatchParameter intake API payload (api.go lines 58-61). -/
structure AttackRuleMatchParameter where
  Name : String
  Value : String
deriving DecidableEq

/-- AttackRuleMatch intake API payload (api.go lines 50-55). -/
structure AttackRuleMatch where
  Operator : String
  OperatorValue : String
  Parameters : List AttackRuleMatchParameter
  Highlight : List String
deriving DecidableEq

/-- AttackContextHost intake API payload (api.go lines 75-79). -/
structure AttackContextHost where
  ContextVersion : String
  OsType : String
  Hostname : String
deriving DecidableEq

/-- AttackContextService intake API payload (api.go lines 113-118). -/
structure AttackContextService where
  ContextVersion : String
  Name : String
  Environment : String
  Version : String
deriving DecidableEq

/-- AttackContextTags intake API payload (api.go lines 121-124); held through
a nullable pointer in the context, hence wrapped in Option there. -/
structure AttackContextTags where
  ContextVersion : String
  Values : List String
deriving DecidableEq

/-- AttackContextTrace intake API payload (api.go lines 127-130). -/
structure AttackContextTrace where
  ContextVersion : String
  ID : String
deriving DecidableEq

/-- AttackContextSpan intake API payload (api.go lines 133-136). -/
structure AttackContextSpan where
  ContextVersion : String
  ID : String
deriving DecidableEq

/-- AttackContextTracer intake API payload (api.go lines 139-144). -/
structure AttackContextTracer where
  ContextVersion : String
  RuntimeType : String
  RuntimeVersion : String
  LibVersion : String
deriving DecidableEq

/-- AttackContext intake API payload (api.go lines 64-72), without the HTTP
field (see the section comment above). -/
structure AttackContext where
  Host : AttackContextHost
  Service : AttackContextService
  Tags : Option AttackContextTags
  Span : AttackContextSpan
  Trace : AttackContextTrace
  Tracer : AttackContextTracer
deriving DecidableEq

/-- The Go zero value `AttackContext\x7b\x7d` built by NewAttackContext. -/
def AttackContext.empty : AttackContext :=
  { Host := { ContextVersion := "", OsType := "", Hostname := "" },
    Service := { ContextVersion := "", Name := "", Environment := "", Version := "" },
    Tags := none,
    Span := { ContextVersion := "", ID := "" },
    Trace := { ContextVersion := "", ID := "" },
    Tracer := { ContextVersion := "", RuntimeType := "", RuntimeVersion := "",
                LibVersion := "" } }

/-- AttackEvent intake API payload (api.go lines 32-41). -/
structure AttackEvent where
  EventVersion : String
  EventID : String
  EventType : String
  DetectedAt : Nat
  «Type» : String
  Rule : AttackRule
  RuleMatch : AttackRuleMatch
  Context : AttackContext
deriving DecidableEq

/-- EventBatch intake API payload (api.go lines 26-29). -/
structure EventBatch where
  IdempotencyKey : String
  Events : List AttackEvent
deriving DecidableEq

/-- Modelled from the spec: the span security-event context record
(appsectypes.SpanContext, declared outside the provided sources), carrying
the span and trace identifiers of the span the event occurred in, as read by
applySpanContext. -/
structure SpanContext where
  SpanID : Nat
  TraceID : Nat
deriving DecidableEq

/-- Modelled from the spec: the service context record
(appsectypes.ServiceContext), as read by applyServiceContext. -/
structure ServiceContext where
  Name : String
  Version : String
  Environment : String
deriving DecidableEq

/-- Modelled from the spec: the tracer context record
(appsectypes.TracerContext), as read by applyTracerContext. -/
structure TracerContext where
  Runtime : String
  RuntimeVersion : String
  Version : String
deriving DecidableEq

/-- Modelled from the spec: the host context record
(appsectypes.HostContext), as read by applyHostContext. -/
structure HostContext where
  Hostname : String
  OS : String
deriving DecidableEq

/-- Modelled from the spec: the ambient security-event context records
(appsectypes.SecurityEventContext, an interface declared outside the provided
sources), one variant per concrete context kind dispatched on by
applyContext; the tag context is a plain list of tag strings.  The HTTP
variant is omitted (see the section comment above). -/
inductive SecurityEventContext where
  | span (ctx : SpanContext)
  | service (ctx : ServiceContext)
  | tag (tags : List String)
  | tracer (ctx : TracerContext)
  | host (ctx : HostContext)
deriving DecidableEq

/-- MakeAttackContextTrace (api.go lines 252-257). -/
def MakeAttackContextTrace (traceID : String) : AttackContextTrace :=
  { ContextVersion := "0.1.0", ID := traceID }

/-- MakeAttackContextSpan (api.go lines 260-265). -/
def MakeAttackContextSpan (spanID : String) : AttackContextSpan :=
  { ContextVersion := "0.1.0", ID := spanID }

/-- applySpanContext (api.go lines 244-249): both the trace and the span
payload identifiers are rendered from `ctx.TraceID` in base 10, exactly as
the source does. -/
def applySpanContext (c : AttackContext) (ctx : SpanContext) : AttackContext :=
  let trace := Nat.repr ctx.TraceID
  let span := Nat.repr ctx.TraceID
  { c with Trace := MakeAttackContextTrace trace, Span := MakeAttackContextSpan span }

/-- makeServiceContext (api.go lines 315-322). -/
def makeServiceContext (name version environment : String) : AttackContextService :=
  { ContextVersion := "0.1.0", Name := name, Environment := environment,
    Version := version }

/-- newAttackContextTags (api.go lines 307-312). -/
def newAttackContextTags (tags : List String) : AttackContextTags :=
  { ContextVersion := "0.1.0", Values := tags }

/-- makeAttackContextTracer (api.go lines 297-304). -/
def makeAttackContextTracer (version rt rtVersion : String) : AttackContextTracer :=
  { ContextVersion := "0.1.0", RuntimeType := rt, RuntimeVersion := rtVersion,
    LibVersion := version }

/-- makeAttackContextHost (api.go lines 288-294). -/
def makeAttackContextHost (hostname os : String) : AttackContextHost :=
  { ContextVersion := "0.1.0", OsType := os, Hostname := hostname }

/-- applyContext (api.go lines 227-242): dispatch on the concrete context
kind (without the omitted HTTP variant). -/
def applyContext (c : AttackContext) (ctx : SecurityEventContext) : AttackContext :=
  match ctx with
  | .span actual => applySpanContext c actual
  | .service actual => { c with Service := makeServiceContext actual.Name actual.Version actual.Environment }
  | .tag actual => { c with Tags := some (newAttackContextTags actual) }
  | .tracer actual => { c with Tracer := makeAttackContextTracer actual.Version actual.Runtime actual.RuntimeVersion }
  | .host actual => { c with Host := makeAttackContextHost actual.Hostname actual.OS }

/-- NewAttackContext (api.go lines 216-225): apply the event-local context
records, then the global ones, to a zero-valued context. -/
def NewAttackContext (ctx globalCtx : List SecurityEventContext) : AttackContext :=
  globalCtx.foldl applyContext (ctx.foldl applyContext AttackContext.empty)

/-- Modelled from the spec: one WAF filter of an attack match
(waftypes.AttackMetadata entries, declared outside the provided sources),
with the fields read by FromWAFAttack. -/
structure AttackFilter where
  Operator : String
  OperatorValue : String
  BindingAccessor : String
  ResolvedValue : String
  MatchStatus : String
deriving DecidableEq

/-- Modelled from the spec: one attack match of the WAF attack metadata, with
the fields read by FromWAFAttack. -/
structure AttackMatch where
  Rule : String
  Flow : String
  Filter : List AttackFilter
deriving DecidableEq

/-- Modelled from the spec: the decoded WAF attack metadata, a list of
matches. -/
abbrev AttackMetadata := List AttackMatch

/-- Modelled from the spec: one raw WAF attack record inside a security
event, with its detection time and its raw metadata bytes; the bytes are
embedded as an Option of their JSON decoding (see the section comment). -/
structure RawAttack where
  Time : Nat
  Metadata : Option AttackMetadata
deriving DecidableEq

/-- Modelled from the spec: a finished security-event record
(appsectypes.SecurityEvent, declared outside the provided sources): the
detected WAF attacks together with the event-local context records. -/
structure SecurityEvent where
  Event : List RawAttack
  Context : List SecurityEventContext
deriving DecidableEq

/-- NewAttackEvent (api.go lines 148-163).  The per-event UUID of the
external uuid library is left as the placeholder value (see the section
comment). -/
def NewAttackEvent (ruleID ruleName attackType : String) (t : Nat)
    (mtch : AttackRuleMatch) (attackCtx : AttackContext) : AttackEvent :=
  { EventVersion := "0.1.0", EventID := "", EventType := "appsec.threat.attack",
    DetectedAt := t, «Type» := attackType,
    Rule := { ID := ruleID, Name := ruleName },
    RuleMatch := mtch, Context := attackCtx }

/-- FromWAFAttack (api.go lines 166-189): decoding failure is an error;
otherwise one attack event per flow and per filter, in order. -/
def FromWAFAttack (t : Nat) (md : Option AttackMetadata)
    (attackContext : AttackContext) : Except String (List AttackEvent) :=
  match md with
  | none => .error "json unmarshal error"
  | some ms =>
    .ok (ms.flatMap (fun mtch =>
      mtch.Filter.map (fun filter =>
        NewAttackEvent mtch.Rule mtch.Flow mtch.Flow t
          { Operator := filter.Operator, OperatorValue := filter.OperatorValue,
            Parameters := [{ Name := filter.BindingAccessor,
                             Value := filter.ResolvedValue }],
            Highlight := [filter.MatchStatus] }
          attackContext)))

/-- FromSecurityEvents (api.go lines 193-211): build the batch under the
freshly drawn idempotency key; for each security event build its attack
context from the event-local and global context records, then append the
payloads of each of its WAF attacks, skipping (with a log line) any attack
whose metadata fails to decode. -/
def FromSecurityEvents (idempotencyKey : String) (events : List SecurityEvent)
    (globalContext : List SecurityEventContext) : EventBatch :=
  { IdempotencyKey := idempotencyKey,
    Events := events.flatMap (fun event =>
      let eventContext := NewAttackContext event.Context globalContext
      event.Event.flatMap (fun attack =>
        match FromWAFAttack attack.Time attack.Metadata eventContext with
        | .error _ => []
        | .ok attacks => attacks)) }

/-- The number of detected conditions of one raw attack record: one per
filter of each match of its metadata when the metadata decodes, none when
decoding fails. -/
def conditionCount (a : RawAttack) : Nat :=
  match a.Metadata with
  | none => 0
  | some ms => (ms.map (fun m => m.Filter.length)).sum

end Intake

/-!
Helper lemmas about the dyngo embedding: structure of the ancestor chain,
characterization of event dispatch, and the effect of the state updates.
-/

namespace Dyngo

theorem ancestorChain_parent_none (w : World) (i : Nat)
    (h : (w.get i).parent = none) : ancestorChain w i = [i] := by
  unfold ancestorChain
  rw [h]

theorem ancestorChain_parent_some (w : World) (i p : Nat)
    (h : (w.get i).parent = some p) (hp : p < i) :
    ancestorChain w i = i :: ancestorChain w p := by
  conv_lhs => unfold ancestorChain
  rw [h]
  simp [hp]

theorem ancestorChain_ne_nil (w : World) (i : Nat) : ancestorChain w i ≠ [] := by
  unfold ancestorChain
  split
  · simp
  · split <;> simp

theorem head?_ancestorChain (w : World) (i : Nat) :
    (ancestorChain w i).head? = some i := by
  unfold ancestorChain
  split
  · rfl
  · split <;> rfl

theorem mem_ancestorChain_le (w : World) {i j : Nat}
    (hj : j ∈ ancestorChain w i) : j ≤ i := by
  unfold ancestorChain at hj
  split at hj
  · rw [List.mem_singleton] at hj
    omega
  next p _ =>
    split at hj
    next hlt =>
      rcases List.mem_cons.mp hj with h | h
      · omega
      · have := mem_ancestorChain_le w h
        omega
    next =>
      rw [List.mem_singleton] at hj
      omega
termination_by i

theorem sorted_ancestorChain (w : World) (i : Nat) :
    List.Sorted (fun a b => b < a) (ancestorChain w i) := by
  unfold ancestorChain
  split
  · simp
  next p _ =>
    split
    next hlt =>
      rw [List.sorted_cons]
      refine ⟨fun b hb => ?_, sorted_ancestorChain w p⟩
      have := mem_ancestorChain_le w hb
      omega
    next => simp
termination_by i

theorem WF.parent_lt {w : World} (hw : WF w) {i p : Nat} (hi : i < w.ops.length)
    (hp : (w.get i).parent = some p) : p < i := by
  have h := hw.2 i hi
  unfold childOK at h
  rw [hp] at h
  simpa using h

theorem WF.parent_none {w : World} (hw : WF w) {i : Nat} (hi : i < w.ops.length)
    (hp : (w.get i).parent = none) : i = 0 := by
  have h := hw.2 i hi
  unfold childOK at h
  rw [hp] at h
  simpa using h

theorem getLast?_ancestorChain {w : World} (hw : WF w) {i : Nat}
    (hi : i < w.ops.length) : (ancestorChain w i).getLast? = some 0 := by
  match h : (w.get i).parent with
  | none =>
    rw [ancestorChain_parent_none w i h, hw.parent_none hi h]
    rfl
  | some p =>
    have hp : p < i := hw.parent_lt hi h
    rw [ancestorChain_parent_some w i p h hp, List.getLast?_cons,
        getLast?_ancestorChain hw (Nat.lt_trans hp hi)]
    rfl
termination_by i

theorem chain'_parent_ancestorChain {w : World} (hw : WF w) {i : Nat}
    (hi : i < w.ops.length) :
    List.Chain' (fun a b => (w.get a).parent = some b) (ancestorChain w i) := by
  match h : (w.get i).parent with
  | none =>
    rw [ancestorChain_parent_none w i h]
    simp
  | some p =>
    have hp : p < i := hw.parent_lt hi h
    rw [ancestorChain_parent_some w i p h hp, List.chain'_cons']
    refine ⟨fun y hy => ?_, chain'_parent_ancestorChain hw (Nat.lt_trans hp hi)⟩
    rw [head?_ancestorChain] at hy
    simp only [Option.mem_def, Option.some.injEq] at hy
    subst hy
    exact h
termination_by i

theorem emitEvent_node {w : World} {n : Nat} {k : EventKind} {o : Nat} {t : Ty}
    {v : Invocation} (hv : v ∈ emitEvent w n k o t) : v.node = n := by
  unfold emitEvent at hv
  split at hv
  · simp at hv
  · rcases List.mem_map.mp hv with ⟨l, _, rfl⟩
    rfl

theorem mem_emitEvent {w : World} {n : Nat} {k : EventKind} {o : Nat} {t : Ty}
    (ho : (w.get o).em.disabled = false) {v : Invocation} :
    v ∈ emitEvent w n k o t ↔
      v.node = n ∧ v.origin = o ∧ v.payload = t ∧
        ∃ l ∈ (w.get n).em.listenersOf k, l.key = t ∧ l.lid = v.lid := by
  obtain ⟨vn, vl, vo, vp⟩ := v
  simp only [emitEvent, ho, Bool.false_eq_true, if_false, List.mem_map,
    List.mem_filter, beq_iff_eq, Invocation.mk.injEq]
  constructor
  · rintro ⟨l, ⟨hl, hk⟩, rfl, rfl, rfl, rfl⟩
    exact ⟨rfl, rfl, rfl, l, hl, hk, rfl⟩
  · rintro ⟨rfl, rfl, rfl, l, hl, hk, rfl⟩
    exact ⟨l, ⟨hl, hk⟩, rfl, rfl, rfl, rfl⟩

theorem mem_bubble {w : World} {ns : List Nat} {k : EventKind} {o : Nat} {t : Ty}
    {v : Invocation} :
    v ∈ bubble w ns k o t ↔ ∃ n ∈ ns, v ∈ emitEvent w n k o t := by
  unfold bubble
  exact List.mem_flatMap

theorem bubble_disabled {w : World} {ns : List Nat} {k : EventKind} {o : Nat}
    {t : Ty} (hd : (w.get o).em.disabled = true) :
    bubble w ns k o t = [] := by
  unfold bubble
  rw [List.flatMap_eq_nil_iff]
  intro n _
  unfold emitEvent
  rw [if_pos hd]

theorem pairwise_ge_of_all_eq {l : List Nat} {n : Nat} (h : ∀ x ∈ l, x = n) :
    l.Pairwise (fun a b => b ≤ a) := by
  induction l with
  | nil => exact List.Pairwise.nil
  | cons x l ih =>
    refine List.Pairwise.cons (fun y hy => ?_) (ih (fun y hy => h y (by simp [hy])))
    rw [h x (by simp), h y (by simp [hy])]

theorem sorted_nodes_bubble (w : World) {ns : List Nat} (k : EventKind) (o : Nat)
    (t : Ty) (hs : List.Sorted (fun a b => b < a) ns) :
    List.Sorted (fun a b => b ≤ a) ((bubble w ns k o t).map Invocation.node) := by
  induction ns with
  | nil => simp [bubble]
  | cons n ns ih =>
    rw [List.sorted_cons] at hs
    have hrest := ih hs.2
    unfold bubble at *
    rw [List.flatMap_cons, List.map_append]
    rw [List.Sorted, List.pairwise_append]
    refine ⟨?_, hrest, ?_⟩
    · exact pairwise_ge_of_all_eq (fun x hx => by
        rcases List.mem_map.mp hx with ⟨v, hv, rfl⟩
        exact emitEvent_node hv)
    · intro a ha b hb
      rcases List.mem_map.mp ha with ⟨va, hva, rfl⟩
      rcases List.mem_map.mp hb with ⟨vb, hvb, rfl⟩
      rcases List.mem_flatMap.mp hvb with ⟨m, hm, hvm⟩
      have h1 : va.node = n := emitEvent_node hva
      have h2 : vb.node = m := emitEvent_node hvm
      have h3 : m < n := hs.1 m hm
      omega

theorem get_disableAt_self (w : World) {i : Nat} (hi : i < w.ops.length) :
    (disableAt w i).get i =
      { w.get i with
        em := { onStart := [], onData := [], onFinish := [], disabled := true } } := by
  unfold disableAt World.get
  rw [List.getD_eq_getElem?_getD, List.getElem?_set_self hi]
  rfl

theorem Finish_fst (w : World) (i : Nat) (r : Ty) :
    (Finish w i r).1 = disableAt w i := by
  unfold Finish
  split <;> rfl

theorem Finish_ok (w : World) (i : Nat) (r : Ty)
    (hr : r = (w.get i).expectedResType) :
    (Finish w i r).2 = .ok (bubble w (ancestorChain w i) .finish i r) := by
  unfold Finish validateExpectedRes
  simp [hr]

theorem Finish_error (w : World) (i : Nat) (r : Ty)
    (hr : r ≠ (w.get i).expectedResType) :
    (Finish w i r).2 =
      .error "unexpected operation result: expecting the registered result type" := by
  unfold Finish validateExpectedRes
  simp [hr]

theorem listenersOf_start (e : eventManager) : e.listenersOf .start = e.onStart := rfl

theorem listenersOf_data (e : eventManager) : e.listenersOf .data = e.onData := rfl

theorem listenersOf_finish (e : eventManager) : e.listenersOf .finish = e.onFinish := rfl

theorem get_append_self (w : World) (op : Operation) :
    ({ w with ops := w.ops ++ [op] } : World).get w.ops.length = op := by
  unfold World.get
  rw [List.getD_eq_getElem?_getD, List.getElem?_concat_length]
  rfl

theorem get_append_lt (w : World) (op : Operation) {j : Nat}
    (hj : j < w.ops.length) :
    ({ w with ops := w.ops ++ [op] } : World).get j = w.get j := by
  unfold World.get
  rw [List.getD_eq_getElem?_getD, List.getD_eq_getElem?_getD,
      List.getElem?_append, if_pos hj]

theorem WF_append_child {w : World} (hw : WF w) {par : Nat}
    (hpar : par < w.ops.length) (rt : Ty) (em : eventManager) :
    WF { w with ops := w.ops ++ [{ parent := some par, expectedResType := rt,
                                   em := em }] } := by
  constructor
  · simp only [List.length_append, List.length_cons, List.length_nil]
    omega
  · intro i hi
    simp only [List.length_append, List.length_cons, List.length_nil] at hi
    by_cases hlt : i < w.ops.length
    · rw [get_append_lt w _ hlt]
      exact hw.2 i hlt
    · have : i = w.ops.length := by omega
      subst this
      rw [get_append_self]
      unfold childOK
      simpa using hpar

theorem registerAll_ok (ps : List (Ty × Ty)) :
    ∀ w : World, (ps.map Prod.fst).Nodup →
      (∀ p ∈ ps, lookupReg w p.1 = none) →
      ∃ w', registerAll w ps = Except.ok w' ∧
        w'.operationRegister = w.operationRegister ++ ps ∧
        w'.ops = w.ops := by
  induction ps with
  | nil =>
    intro w _ _
    exact ⟨w, rfl, by simp, rfl⟩
  | cons p ps ih =>
    intro w hnd hnew
    rw [List.map_cons, List.nodup_cons] at hnd
    have hp : lookupReg w p.1 = none := hnew p (List.mem_cons_self p ps)
    have hstep : RegisterOperation w p.1 p.2 =
        Except.ok { w with
          operationRegister := w.operationRegister ++ [(p.1, p.2)],
          operationResRegister := w.operationResRegister ++ [p.2] } := by
      unfold RegisterOperation
      rw [hp]
    have hnew' : ∀ q ∈ ps,
        lookupReg { w with
          operationRegister := w.operationRegister ++ [(p.1, p.2)],
          operationResRegister := w.operationResRegister ++ [p.2] } q.1 = none := by
      intro q hq
      have hq1 : lookupReg w q.1 = none := hnew q (List.mem_cons_of_mem p hq)
      have hne : (p.1 == q.1) = false := by
        rw [beq_eq_false_iff_ne]
        intro hcontra
        exact hnd.1 (hcontra ▸ List.mem_map_of_mem Prod.fst hq)
      unfold lookupReg at hq1 ⊢
      have hR : List.find? (fun pr => pr.1 == q.1) w.operationRegister = none := by
        cases hfr : List.find? (fun pr => pr.1 == q.1) w.operationRegister with
        | none => rfl
        | some x =>
          rw [hfr] at hq1
          simp at hq1
      simp only [List.find?_append, hR, Option.none_or, List.find?_cons,
        List.find?_nil, hne]
      rfl
    obtain ⟨w', hall, hreg, hops⟩ := ih _ hnd.2 hnew'
    refine ⟨w', ?_, ?_, hops⟩
    · unfold registerAll at hall ⊢
      rw [List.foldlM_cons, hstep]
      exact hall
    · rw [hreg]
      simp

theorem find?_eq_of_mem_nodupKeys {ps : List (Ty × Ty)} {p : Ty × Ty}
    (hnd : (ps.map Prod.fst).Nodup) (hp : p ∈ ps) :
    ps.find? (fun q => q.1 == p.1) = some p := by
  induction ps with
  | nil => simp at hp
  | cons q ps ih =>
    rw [List.map_cons, List.nodup_cons] at hnd
    rcases List.mem_cons.mp hp with rfl | hp'
    · exact List.find?_cons_of_pos _ (by simp)
    · have hne : (q.1 == p.1) = false := by
        rw [beq_eq_false_iff_ne]
        intro hcontra
        exact hnd.1 (hcontra ▸ List.mem_map_of_mem Prod.fst hp')
      simp only [List.find?_cons, hne]
      exact ih hnd.2 hp'

theorem find?_perm_of_nodupKeys {ps ps' : List (Ty × Ty)} (h : ps.Perm ps') :
    (ps.map Prod.fst).Nodup → ∀ t : Ty,
      ps.find? (fun q => q.1 == t) = ps'.find? (fun q => q.1 == t) := by
  induction h with
  | nil =>
    intro _ t
    rfl
  | cons x h ih =>
    intro hnd t
    rw [List.map_cons, List.nodup_cons] at hnd
    simp only [List.find?_cons]
    cases hx : (x.1 == t) with
    | true => rfl
    | false => exact ih hnd.2 t
  | swap x y l =>
    intro hnd t
    simp only [List.map_cons, List.nodup_cons, List.mem_cons, List.mem_map] at hnd
    simp only [List.find?_cons]
    cases hy : (y.1 == t) with
    | true =>
      cases hx : (x.1 == t) with
      | true =>
        exfalso
        rw [beq_iff_eq] at hx hy
        exact hnd.1 (Or.inl (hy.trans hx.symm))
      | false => rfl
    | false =>
      cases hx : (x.1 == t) with
      | true => rfl
      | false => rfl
  | trans h1 _h2 ih1 ih2 =>
    intro hnd t
    exact (ih1 hnd t).trans (ih2 (((h1.map Prod.fst).nodup_iff).mp hnd) t)

end Dyngo

/-!
The verified properties.  Each claim is stated as one theorem; when the
theorem carries hypotheses, a closed witness instantiates it on a concrete
input.
-/

/-- C1: for every Active operation O whose supplied result has runtime type
equal to O's expectedResultType, Finish invokes finish-listeners on exactly
the ancestor chain O, parent(O), ..., Root — the invocations are exactly
those of the finish-listeners watching the result type on the nodes of the
chain, which starts at O and ends at the root — and afterwards transitions O
to the Disabled state with all of O's listener collections (start, data,
finish) cleared. -/
theorem finish_ok_invokes_chain_then_disables (w : Dyngo.World) (i : Nat)
    (r : Dyngo.Ty) (hw : Dyngo.WF w) (hi : i < w.ops.length)
    (hact : (w.get i).em.disabled = false)
    (hr : r = (w.get i).expectedResType) :
    ∃ invs, (Dyngo.Finish w i r).2 = Except.ok invs ∧
      (∀ v : Dyngo.Invocation, v ∈ invs ↔
        (v.node ∈ Dyngo.ancestorChain w i ∧ v.origin = i ∧ v.payload = r ∧
          ∃ l ∈ (w.get v.node).em.onFinish, l.key = r ∧ l.lid = v.lid)) ∧
      (Dyngo.ancestorChain w i).head? = some i ∧
      (Dyngo.ancestorChain w i).getLast? = some 0 ∧
      ((Dyngo.Finish w i r).1.get i).em.disabled = true ∧
      ((Dyngo.Finish w i r).1.get i).em.onStart = [] ∧
      ((Dyngo.Finish w i r).1.get i).em.onData = [] ∧
      ((Dyngo.Finish w i r).1.get i).em.onFinish = [] := by
  have hdis : (Dyngo.Finish w i r).1.get i =
      { w.get i with em := { onStart := [], onData := [], onFinish := [],
                             disabled := true } } := by
    rw [Dyngo.Finish_fst, Dyngo.get_disableAt_self w hi]
  refine ⟨_, Dyngo.Finish_ok w i r hr, ?_, Dyngo.head?_ancestorChain w i,
    Dyngo.getLast?_ancestorChain hw hi, by rw [hdis], by rw [hdis],
    by rw [hdis], by rw [hdis]⟩
  intro v
  rw [Dyngo.mem_bubble]
  constructor
  · rintro ⟨n, hn, hv⟩
    have hvn := Dyngo.emitEvent_node hv
    rw [Dyngo.mem_emitEvent hact] at hv
    obtain ⟨_, ho, hp, hl⟩ := hv
    rw [Dyngo.listenersOf_finish] at hl
    subst hvn
    exact ⟨hn, ho, hp, hl⟩
  · rintro ⟨hmem, ho, hp, hl⟩
    refine ⟨v.node, hmem, ?_⟩
    rw [Dyngo.mem_emitEvent hact]
    exact ⟨rfl, ho, hp, by rw [Dyngo.listenersOf_finish]; exact hl⟩

/-- C3: for every Active operation O, EmitData delivers the data event to
exactly the nodes of the ancestor chain O, parent(O), ..., Root whose
data-listeners match the payload's runtime type, and visits them in chain
order: the chain starts at O, ends at the root, follows the parent links,
is strictly deeper-to-shallower, and the produced invocations respect that
order (origin first, root last). -/
theorem emitData_bubbles_self_to_root_in_order (w : Dyngo.World) (i : Nat)
    (d : Dyngo.Ty) (hw : Dyngo.WF w) (hi : i < w.ops.length)
    (hact : (w.get i).em.disabled = false) :
    (∀ v : Dyngo.Invocation, v ∈ Dyngo.EmitData w i d ↔
      (v.node ∈ Dyngo.ancestorChain w i ∧ v.origin = i ∧ v.payload = d ∧
        ∃ l ∈ (w.get v.node).em.onData, l.key = d ∧ l.lid = v.lid)) ∧
    (Dyngo.ancestorChain w i).head? = some i ∧
    (Dyngo.ancestorChain w i).getLast? = some 0 ∧
    List.Chain' (fun a b => (w.get a).parent = some b)
      (Dyngo.ancestorChain w i) ∧
    List.Sorted (fun a b => b < a) (Dyngo.ancestorChain w i) ∧
    List.Sorted (fun a b => b ≤ a)
      ((Dyngo.EmitData w i d).map Dyngo.Invocation.node) := by
  have hED : Dyngo.EmitData w i d =
      Dyngo.bubble w (Dyngo.ancestorChain w i) .data i d := by
    unfold Dyngo.EmitData
    rw [if_neg (by rw [hact]; exact Bool.false_ne_true)]
  refine ⟨?_, Dyngo.head?_ancestorChain w i,
    Dyngo.getLast?_ancestorChain hw hi,
    Dyngo.chain'_parent_ancestorChain hw hi,
    Dyngo.sorted_ancestorChain w i, ?_⟩
  · intro v
    rw [hED, Dyngo.mem_bubble]
    constructor
    · rintro ⟨n, hn, hv⟩
      have hvn := Dyngo.emitEvent_node hv
      rw [Dyngo.mem_emitEvent hact] at hv
      obtain ⟨_, ho, hp, hl⟩ := hv
      rw [Dyngo.listenersOf_data] at hl
      subst hvn
      exact ⟨hn, ho, hp, hl⟩
    · rintro ⟨hmem, ho, hp, hl⟩
      refine ⟨v.node, hmem, ?_⟩
      rw [Dyngo.mem_emitEvent hact]
      exact ⟨rfl, ho, hp, by rw [Dyngo.listenersOf_data]; exact hl⟩
  · rw [hED]
    exact Dyngo.sorted_nodes_bubble w .data i d (Dyngo.sorted_ancestorChain w i)

/-- C4: for every operation C already finished through a successful Finish
call, a second Finish call with a result of the expected type re-invokes no
finish-listener at all (neither C's own nor any ancestor's) and does not
abort: it returns normally with an empty invocation list. -/
theorem finish_twice_silent_noop (w : Dyngo.World) (i : Nat) (r : Dyngo.Ty)
    (invs : List Dyngo.Invocation) (hi : i < w.ops.length)
    (h1 : (Dyngo.Finish w i r).2 = Except.ok invs) :
    (Dyngo.Finish (Dyngo.Finish w i r).1 i r).2 = Except.ok [] := by
  have hr : r = (w.get i).expectedResType := by
    by_contra hne
    rw [Dyngo.Finish_error w i r hne] at h1
    exact absurd h1 (by simp)
  rw [Dyngo.Finish_fst]
  have hget : (Dyngo.disableAt w i).get i =
      { w.get i with em := { onStart := [], onData := [], onFinish := [],
                             disabled := true } } :=
    Dyngo.get_disableAt_self w hi
  rw [Dyngo.Finish_ok _ i r (by rw [hget]; exact hr)]
  rw [Dyngo.bubble_disabled (by rw [hget])]

/-- C5: for every operation O and result whose runtime type differs from O's
expectedResultType, Finish aborts fatally (an error, embedding the Go panic)
and produces no listener invocation on any node: there is no invocation
list it could return. -/
theorem finish_type_mismatch_fatal (w : Dyngo.World) (i : Nat) (r : Dyngo.Ty)
    (hr : r ≠ (w.get i).expectedResType) :
    (Dyngo.Finish w i r).2 =
      Except.error
        "unexpected operation result: expecting the registered result type" ∧
    ∀ invs, (Dyngo.Finish w i r).2 ≠ Except.ok invs := by
  refine ⟨Dyngo.Finish_error w i r hr, fun invs h => ?_⟩
  rw [Dyngo.Finish_error w i r hr] at h
  exact absurd h (by simp)

/-- C6: for every operation O in the Disabled state, EmitData invokes no
listener on any node, and Register leaves the world unchanged, so no
registered listener can ever fire; both are silent no-ops. -/
theorem disabled_emitData_register_noop (w : Dyngo.World) (i : Nat)
    (hd : (w.get i).em.disabled = true) :
    (∀ d, Dyngo.EmitData w i d = []) ∧
    (∀ ls, Dyngo.Register w i ls = w) := by
  constructor
  · intro d
    unfold Dyngo.EmitData
    rw [if_pos hd]
  · intro ls
    have hstep : ∀ l, Dyngo.registerTo w i l = w := by
      intro l
      unfold Dyngo.registerTo
      rw [if_pos hd]
    induction ls with
    | nil => rfl
    | cons l ls ih =>
      unfold Dyngo.Register at ih ⊢
      rw [List.foldl_cons, hstep l]
      exact ih

/-- C9: even when Finish aborts fatally because the supplied result's
runtime type differs from the expected one, the operation still transitions
to the Disabled state with all its listener collections cleared in the
resulting world (the deferred disable runs on the panic path). -/
theorem finish_mismatch_still_disables (w : Dyngo.World) (i : Nat)
    (r : Dyngo.Ty) (hi : i < w.ops.length)
    (hr : r ≠ (w.get i).expectedResType) :
    (∃ e, (Dyngo.Finish w i r).2 = Except.error e) ∧
    ((Dyngo.Finish w i r).1.get i).em =
      { onStart := [], onData := [], onFinish := [], disabled := true } := by
  refine ⟨⟨_, Dyngo.Finish_error w i r hr⟩, ?_⟩
  rw [Dyngo.Finish_fst, Dyngo.get_disableAt_self w hi]

/-- C2: for every operation created by StartOperation (with a registered
argument type and a valid parent, the root when none is given), the start
event is delivered to exactly the proper ancestors P0 = parent, P1, ...,
Pn = Root whose start-listeners watch the argument's runtime type — the
invocations are exactly those of the matching start-listeners on the parent's
ancestor chain, which starts at the parent and ends at the root — and never
to the new operation itself. -/
theorem startOperation_bubbles_to_proper_ancestors (w : Dyngo.World)
    (argsTy rt : Dyngo.Ty) (par : Option Nat)
    (hw : Dyngo.WF w) (hpar : par.getD 0 < w.ops.length)
    (hreg : Dyngo.getOperationRes w argsTy = Except.ok rt) :
    ∃ w' invs, Dyngo.StartOperation w argsTy par =
        Except.ok (w', w.ops.length, invs) ∧
      (w'.get w.ops.length).parent = some (par.getD 0) ∧
      (w'.get w.ops.length).expectedResType = rt ∧
      (∀ v ∈ invs, v.node ≠ w.ops.length) ∧
      (∀ v : Dyngo.Invocation, v ∈ invs ↔
        (v.node ∈ Dyngo.ancestorChain w' (par.getD 0) ∧
          v.origin = w.ops.length ∧ v.payload = argsTy ∧
          ∃ l ∈ (w'.get v.node).em.onStart, l.key = argsTy ∧ l.lid = v.lid)) ∧
      (Dyngo.ancestorChain w' (par.getD 0)).head? = some (par.getD 0) ∧
      (Dyngo.ancestorChain w' (par.getD 0)).getLast? = some 0 := by
  set newOp : Dyngo.Operation :=
    { parent := some (par.getD 0), expectedResType := rt,
      em := { onStart := [], onData := [], onFinish := [],
              disabled := false } } with hop
  set w' : Dyngo.World := { w with ops := w.ops ++ [newOp] } with hwdef
  have hnew : w'.get w.ops.length = newOp := Dyngo.get_append_self w newOp
  have hwf' : Dyngo.WF w' := Dyngo.WF_append_child hw hpar rt newOp.em
  have hlen' : par.getD 0 < w'.ops.length := by
    rw [hwdef]
    simp only [List.length_append, List.length_cons, List.length_nil]
    omega
  have hstart : Dyngo.StartOperation w argsTy par =
      Except.ok (w', w.ops.length,
        Dyngo.bubble w' (Dyngo.ancestorChain w' (par.getD 0)) .start
          w.ops.length argsTy) := by
    unfold Dyngo.StartOperation
    rw [hreg]
  have horig : (w'.get w.ops.length).em.disabled = false := by
    rw [hnew]
  refine ⟨w', _, hstart, by rw [hnew], by rw [hnew], ?_, ?_,
    Dyngo.head?_ancestorChain w' (par.getD 0),
    Dyngo.getLast?_ancestorChain hwf' hlen'⟩
  · intro v hv
    obtain ⟨n, hn, hvn⟩ := Dyngo.mem_bubble.mp hv
    have hle := Dyngo.mem_ancestorChain_le w' hn
    have := Dyngo.emitEvent_node hvn
    omega
  · intro v
    rw [Dyngo.mem_bubble]
    constructor
    · rintro ⟨n, hn, hv⟩
      have hvn := Dyngo.emitEvent_node hv
      rw [Dyngo.mem_emitEvent horig] at hv
      obtain ⟨_, ho, hp, hl⟩ := hv
      rw [Dyngo.listenersOf_start] at hl
      subst hvn
      exact ⟨hn, ho, hp, hl⟩
    · rintro ⟨hmem, ho, hp, hl⟩
      refine ⟨v.node, hmem, ?_⟩
      rw [Dyngo.mem_emitEvent horig]
      exact ⟨rfl, ho, hp, by rw [Dyngo.listenersOf_start]; exact hl⟩

/-- C7: RegisterOperation is fatal whenever the argument type is already
present in the registry; any sequence of calls with pairwise distinct
argument types succeeds from the initial state, records every mapping, and
yields an argument-to-result lookup that is independent of the order of the
calls. -/
theorem registerOperation_duplicate_fatal_distinct_cumulative :
    (∀ (w : Dyngo.World) (a r r' : Dyngo.Ty), Dyngo.lookupReg w a = some r' →
      Dyngo.RegisterOperation w a r =
        Except.error "operation already registered with argument type") ∧
    (∀ ps : List (Dyngo.Ty × Dyngo.Ty), (ps.map Prod.fst).Nodup →
      ∃ w', Dyngo.registerAll Dyngo.World.init ps = Except.ok w' ∧
        ∀ p ∈ ps, Dyngo.lookupReg w' p.1 = some p.2) ∧
    (∀ ps ps' : List (Dyngo.Ty × Dyngo.Ty), ps.Perm ps' →
      (ps.map Prod.fst).Nodup →
      ∃ w1 w2, Dyngo.registerAll Dyngo.World.init ps = Except.ok w1 ∧
        Dyngo.registerAll Dyngo.World.init ps' = Except.ok w2 ∧
        ∀ t, Dyngo.lookupReg w1 t = Dyngo.lookupReg w2 t) := by
  refine ⟨?_, ?_, ?_⟩
  · intro w a r r' h
    unfold Dyngo.RegisterOperation
    rw [h]
  · intro ps hnd
    obtain ⟨w', hall, hreg, _⟩ :=
      Dyngo.registerAll_ok ps Dyngo.World.init hnd (fun p _ => rfl)
    refine ⟨w', hall, fun p hp => ?_⟩
    unfold Dyngo.lookupReg
    rw [hreg]
    show ((Dyngo.World.init.operationRegister ++ ps).find?
      (fun q => q.1 == p.1)).map (fun q => q.2) = some p.2
    rw [show Dyngo.World.init.operationRegister = [] from rfl, List.nil_append,
      Dyngo.find?_eq_of_mem_nodupKeys hnd hp]
    rfl
  · intro ps ps' hperm hnd
    have hnd' : (ps'.map Prod.fst).Nodup :=
      ((hperm.map Prod.fst).nodup_iff).mp hnd
    obtain ⟨w1, h1, hreg1, _⟩ :=
      Dyngo.registerAll_ok ps Dyngo.World.init hnd (fun p _ => rfl)
    obtain ⟨w2, h2, hreg2, _⟩ :=
      Dyngo.registerAll_ok ps' Dyngo.World.init hnd' (fun p _ => rfl)
    refine ⟨w1, w2, h1, h2, fun t => ?_⟩
    unfold Dyngo.lookupReg
    rw [hreg1, hreg2,
      show Dyngo.World.init.operationRegister = [] from rfl,
      List.nil_append, List.nil_append,
      Dyngo.find?_perm_of_nodupKeys hperm hnd t]

/-- C8: for every list of security events and every global context list,
FromSecurityEvents returns a batch carrying the freshly generated batch
identifier (idempotency key, embedded as the explicit freshly drawn value)
and containing exactly one attack-event record per detected condition: one
record per filter of each match of each attack whose metadata decodes
successfully, while attacks whose metadata fails to decode contribute
nothing without aborting the batch. -/
theorem fromSecurityEvents_one_event_per_condition (idKey : String)
    (events : List Intake.SecurityEvent)
    (globalContext : List Intake.SecurityEventContext) :
    (Intake.FromSecurityEvents idKey events globalContext).IdempotencyKey =
      idKey ∧
    (Intake.FromSecurityEvents idKey events globalContext).Events.length =
      (events.map (fun e => (e.Event.map Intake.conditionCount).sum)).sum := by
  refine ⟨rfl, ?_⟩
  unfold Intake.FromSecurityEvents
  simp only [List.length_flatMap]
  congr 1
  apply List.map_congr_left
  intro e _
  simp only [Function.comp_def]
  rw [List.length_flatMap]
  congr 1
  apply List.map_congr_left
  intro a _
  simp only [Function.comp_def]
  unfold Intake.FromWAFAttack Intake.conditionCount
  cases hmd : a.Metadata with
  | none => rfl
  | some ms =>
    simp only [List.length_flatMap]
    congr 1
    apply List.map_congr_left
    intro m _
    simp only [Function.comp_def]
    exact List.length_map _ _

/-- Witness for C1: in the concrete example world the Active child operation
(index 1) is finished with its expected result type 5; the root's matching
finish-listener is the only invocation and the child ends up Disabled and
cleared. -/
theorem finish_ok_invokes_chain_then_disables_witness :
    Dyngo.WF Dyngo.exampleWorld ∧ 1 < Dyngo.exampleWorld.ops.length ∧
    (Dyngo.exampleWorld.get 1).em.disabled = false ∧
    (5 : Dyngo.Ty) = (Dyngo.exampleWorld.get 1).expectedResType ∧
    (∃ invs, (Dyngo.Finish Dyngo.exampleWorld 1 5).2 = Except.ok invs ∧
      (∀ v : Dyngo.Invocation, v ∈ invs ↔
        (v.node ∈ Dyngo.ancestorChain Dyngo.exampleWorld 1 ∧ v.origin = 1 ∧
          v.payload = 5 ∧
          ∃ l ∈ (Dyngo.exampleWorld.get v.node).em.onFinish,
            l.key = 5 ∧ l.lid = v.lid)) ∧
      (Dyngo.ancestorChain Dyngo.exampleWorld 1).head? = some 1 ∧
      (Dyngo.ancestorChain Dyngo.exampleWorld 1).getLast? = some 0 ∧
      ((Dyngo.Finish Dyngo.exampleWorld 1 5).1.get 1).em.disabled = true ∧
      ((Dyngo.Finish Dyngo.exampleWorld 1 5).1.get 1).em.onStart = [] ∧
      ((Dyngo.Finish Dyngo.exampleWorld 1 5).1.get 1).em.onData = [] ∧
      ((Dyngo.Finish Dyngo.exampleWorld 1 5).1.get 1).em.onFinish = []) :=
  ⟨by decide, by decide, by decide, by decide,
    finish_ok_invokes_chain_then_disables Dyngo.exampleWorld 1 5
      (by decide) (by decide) (by decide) (by decide)⟩

/-- Witness for C2: starting an operation of argument type 3 (registered
with result type 5) with no explicit parent in the example world bubbles the
start event over the chain root-only chain [0] and never to the new
operation (index 2). -/
theorem startOperation_bubbles_to_proper_ancestors_witness :
    Dyngo.WF Dyngo.exampleWorld ∧
    (none : Option Nat).getD 0 < Dyngo.exampleWorld.ops.length ∧
    Dyngo.getOperationRes Dyngo.exampleWorld 3 = Except.ok 5 ∧
    (∃ w' invs, Dyngo.StartOperation Dyngo.exampleWorld 3 none =
        Except.ok (w', Dyngo.exampleWorld.ops.length, invs) ∧
      (w'.get Dyngo.exampleWorld.ops.length).parent =
        some ((none : Option Nat).getD 0) ∧
      (w'.get Dyngo.exampleWorld.ops.length).expectedResType = 5 ∧
      (∀ v ∈ invs, v.node ≠ Dyngo.exampleWorld.ops.length) ∧
      (∀ v : Dyngo.Invocation, v ∈ invs ↔
        (v.node ∈ Dyngo.ancestorChain w' ((none : Option Nat).getD 0) ∧
          v.origin = Dyngo.exampleWorld.ops.length ∧ v.payload = 3 ∧
          ∃ l ∈ (w'.get v.node).em.onStart, l.key = 3 ∧ l.lid = v.lid)) ∧
      (Dyngo.ancestorChain w' ((none : Option Nat).getD 0)).head? =
        some ((none : Option Nat).getD 0) ∧
      (Dyngo.ancestorChain w' ((none : Option Nat).getD 0)).getLast? =
        some 0) :=
  ⟨by decide, by decide, rfl,
    startOperation_bubbles_to_proper_ancestors Dyngo.exampleWorld 3 5 none
      (by decide) (by decide) rfl⟩

/-- Witness for C3: emitting data of type 7 on the Active child operation
(index 1) of the example world; the root's data-listener for type 7
matches. -/
theorem emitData_bubbles_self_to_root_in_order_witness :
    Dyngo.WF Dyngo.exampleWorld ∧ 1 < Dyngo.exampleWorld.ops.length ∧
    (Dyngo.exampleWorld.get 1).em.disabled = false ∧
    ((∀ v : Dyngo.Invocation, v ∈ Dyngo.EmitData Dyngo.exampleWorld 1 7 ↔
      (v.node ∈ Dyngo.ancestorChain Dyngo.exampleWorld 1 ∧ v.origin = 1 ∧
        v.payload = 7 ∧
        ∃ l ∈ (Dyngo.exampleWorld.get v.node).em.onData,
          l.key = 7 ∧ l.lid = v.lid)) ∧
    (Dyngo.ancestorChain Dyngo.exampleWorld 1).head? = some 1 ∧
    (Dyngo.ancestorChain Dyngo.exampleWorld 1).getLast? = some 0 ∧
    List.Chain' (fun a b => (Dyngo.exampleWorld.get a).parent = some b)
      (Dyngo.ancestorChain Dyngo.exampleWorld 1) ∧
    List.Sorted (fun a b => b < a) (Dyngo.ancestorChain Dyngo.exampleWorld 1) ∧
    List.Sorted (fun a b => b ≤ a)
      ((Dyngo.EmitData Dyngo.exampleWorld 1 7).map Dyngo.Invocation.node)) :=
  ⟨by decide, by decide, by decide,
    emitData_bubbles_self_to_root_in_order Dyngo.exampleWorld 1 7
      (by decide) (by decide) (by decide)⟩

/-- Witness for C4: finishing the child operation (index 1) of the example
world twice with the expected result type 5: the first call fires the root's
finish-listener once, the second returns normally with no invocation. -/
theorem finish_twice_silent_noop_witness :
    1 < Dyngo.exampleWorld.ops.length ∧
    (Dyngo.Finish Dyngo.exampleWorld 1 5).2 =
      Except.ok [{ node := 0, lid := 100, origin := 1, payload := 5 }] ∧
    (Dyngo.Finish (Dyngo.Finish Dyngo.exampleWorld 1 5).1 1 5).2 =
      Except.ok [] := by
  have hchain : Dyngo.ancestorChain Dyngo.exampleWorld 1 = [1, 0] := by
    rw [Dyngo.ancestorChain_parent_some Dyngo.exampleWorld 1 0 rfl (by decide),
        Dyngo.ancestorChain_parent_none Dyngo.exampleWorld 0 rfl]
  have h1 : (Dyngo.Finish Dyngo.exampleWorld 1 5).2 =
      Except.ok [{ node := 0, lid := 100, origin := 1, payload := 5 }] := by
    rw [Dyngo.Finish_ok Dyngo.exampleWorld 1 5 rfl, hchain]
    rfl
  exact ⟨by decide, h1,
    finish_twice_silent_noop Dyngo.exampleWorld 1 5 _ (by decide) h1⟩

/-- Witness for C5: finishing the child operation (index 1) of the example
world with result type 9 instead of the expected 5 is fatal and produces no
invocation list. -/
theorem finish_type_mismatch_fatal_witness :
    (9 : Dyngo.Ty) ≠ (Dyngo.exampleWorld.get 1).expectedResType ∧
    ((Dyngo.Finish Dyngo.exampleWorld 1 9).2 =
      Except.error
        "unexpected operation result: expecting the registered result type" ∧
    ∀ invs, (Dyngo.Finish Dyngo.exampleWorld 1 9).2 ≠ Except.ok invs) :=
  ⟨by decide, finish_type_mismatch_fatal Dyngo.exampleWorld 1 9 (by decide)⟩

/-- Witness for C6: on the already-Disabled child operation (index 1) of
the disabled example world, EmitData and Register are no-ops. -/
theorem disabled_emitData_register_noop_witness :
    (Dyngo.exampleWorldDisabled.get 1).em.disabled = true ∧
    ((∀ d, Dyngo.EmitData Dyngo.exampleWorldDisabled 1 d = []) ∧
    (∀ ls, Dyngo.Register Dyngo.exampleWorldDisabled 1 ls =
      Dyngo.exampleWorldDisabled)) :=
  ⟨by decide, disabled_emitData_register_noop Dyngo.exampleWorldDisabled 1
    (by decide)⟩

/-- Witness for C7: re-registering argument type 3 in the example world is
fatal; registering the distinct argument types 3 and 4 from the initial
world succeeds, records both mappings, and produces the same lookups in
either order. -/
theorem registerOperation_duplicate_fatal_distinct_cumulative_witness :
    Dyngo.lookupReg Dyngo.exampleWorld 3 = some 5 ∧
    Dyngo.RegisterOperation Dyngo.exampleWorld 3 9 =
      Except.error "operation already registered with argument type" ∧
    (([(3, 5), (4, 6)] : List (Dyngo.Ty × Dyngo.Ty)).map Prod.fst).Nodup ∧
    (∃ w', Dyngo.registerAll Dyngo.World.init [(3, 5), (4, 6)] =
        Except.ok w' ∧
      ∀ p ∈ ([(3, 5), (4, 6)] : List (Dyngo.Ty × Dyngo.Ty)),
        Dyngo.lookupReg w' p.1 = some p.2) ∧
    ([(3, 5), (4, 6)] : List (Dyngo.Ty × Dyngo.Ty)).Perm [(4, 6), (3, 5)] ∧
    (∃ w1 w2, Dyngo.registerAll Dyngo.World.init [(3, 5), (4, 6)] =
        Except.ok w1 ∧
      Dyngo.registerAll Dyngo.World.init [(4, 6), (3, 5)] = Except.ok w2 ∧
      ∀ t, Dyngo.lookupReg w1 t = Dyngo.lookupReg w2 t) :=
  ⟨rfl,
    registerOperation_duplicate_fatal_distinct_cumulative.1
      Dyngo.exampleWorld 3 9 5 rfl,
    by decide,
    registerOperation_duplicate_fatal_distinct_cumulative.2.1
      [(3, 5), (4, 6)] (by decide),
    List.Perm.swap (4, 6) (3, 5) [],
    registerOperation_duplicate_fatal_distinct_cumulative.2.2
      [(3, 5), (4, 6)] [(4, 6), (3, 5)]
      (List.Perm.swap (4, 6) (3, 5) []) (by decide)⟩

/-- Witness for C9: finishing the child operation (index 1) of the example
world with the wrong result type 9 errors, yet the child's listener state is
cleared and disabled in the resulting world. -/
theorem finish_mismatch_still_disables_witness :
    1 < Dyngo.exampleWorld.ops.length ∧
    (9 : Dyngo.Ty) ≠ (Dyngo.exampleWorld.get 1).expectedResType ∧
    ((∃ e, (Dyngo.Finish Dyngo.exampleWorld 1 9).2 = Except.error e) ∧
    ((Dyngo.Finish Dyngo.exampleWorld 1 9).1.get 1).em =
      { onStart := [], onData := [], onFinish := [], disabled := true }) :=
  ⟨by decide, by decide,
    finish_mismatch_still_disables Dyngo.exampleWorld 1 9 (by decide)
      (by decide)⟩

/-- C10: for every span context applied to an attack context, the resulting
payload's span identifier equals the decimal rendering of the context's
trace identifier — the same value as the trace field — regardless of the
span context's own span identifier. -/
theorem applySpanContext_span_id_eq_trace_id (c : Intake.AttackContext)
    (ctx : Intake.SpanContext) :
    (Intake.applySpanContext c ctx).Span.ID =
      (Intake.applySpanContext c ctx).Trace.ID ∧
    (Intake.applySpanContext c ctx).Span.ID = Nat.repr ctx.TraceID :=
  ⟨rfl, rfl⟩
